import Mathlib

/-!
Verification development for TracFit (tracfit.ino), a fitness tracker for
the Adafruit Circuit Playground.  The sketch classifies one of four
exercises from a single accelerometer orientation sample and counts
repetitions with per-exercise two-phase loops.

Shallow embedding: each `while` loop body of the sketch becomes a step
function on an explicit state, and the loop itself becomes a fold over a
finite list of accelerometer samples (one list element per `motionX/Y/Z`
read).  Blocking loops that would spin forever on a given finite sample
stream are modelled by `Option`: `none` means control never came back.
Accelerometer floats are modelled as `Int`; the sketch only ever compares
samples, so only the ordering matters.
-/

/-- One 3-axis accelerometer reading: the values of
`CircuitPlayground.motionX()`, `motionY()`, `motionZ()` at one tick. -/
structure Sample where
  x : Int
  y : Int
  z : Int
deriving DecidableEq

/-- Constant from `#define REPS 10`: the number of repetitions in one routine. -/
def REPS : Nat := 10

/-- Color from `#define GREEN 0xFDFE01` (Jumping Jacks). -/
def GREEN : Nat := 0xFDFE01

/-- Color from `#define BLUE 0x00F188` (Squats). -/
def BLUE : Nat := 0x00F188

/-- Color from `#define PURPLE 0x0101FF` (Situps). -/
def PURPLE : Nat := 0x0101FF

/-- Color from `#define PINK 0xFC0839` (Pushups). -/
def PINK : Nat := 0xFC0839

/-- State local to one pass of `trackSitUps`: the phase flag `isUpSitUp`
(`true` = up, `false` = down) together with the global counter
`numOfSitUps` the loop reads and writes. -/
structure SitUpState where
  isUpSitUp : Bool
  numOfSitUps : Nat
deriving DecidableEq

/-- One iteration of the `trackSitUps` while-loop body on one sample:
if the phase was up and `X > Y`, flip to down, light LED `numOfSitUps`,
and increment; else if the phase was down and `X < Y`, flip to up.
Returns the new state and the index of the LED lit for a counted
repetition, if any. -/
def situpStepEv (s : SitUpState) (m : Sample) : SitUpState × Option Nat :=
  if s.isUpSitUp = true ∧ m.x > m.y then
    (⟨false, s.numOfSitUps + 1⟩, some s.numOfSitUps)
  else if s.isUpSitUp = false ∧ m.x < m.y then
    (⟨true, s.numOfSitUps⟩, none)
  else
    (s, none)

/-- The `while (numOfSitUps < REPS)` loop of `trackSitUps`, reading one
sample per iteration from the list; stops consuming when the guard
fails.  Returns the final state and the per-consumed-sample repetition
events. -/
def situpRun (s : SitUpState) : List Sample → SitUpState × List (Option Nat)
  | [] => (s, [])
  | m :: ms =>
    if s.numOfSitUps < REPS then
      let p := situpStepEv s m
      let r := situpRun p.1 ms
      (r.1, p.2 :: r.2)
    else
      (s, [])

/-- State local to one pass of `trackPushUps`: the phase flag
`isDownPushUp` (`true` = down, `false` = up) and the global counter
`numOfPushUps`. -/
structure PushUpState where
  isDownPushUp : Bool
  numOfPushUps : Nat
deriving DecidableEq

/-- One iteration of the `trackPushUps` while-loop body: if the phase was
down and `Z > X`, flip to up, light LED `numOfPushUps`, and increment;
else if the phase was up and `Z < X`, flip to down. -/
def pushupStepEv (s : PushUpState) (m : Sample) : PushUpState × Option Nat :=
  if s.isDownPushUp = true ∧ m.z > m.x then
    (⟨false, s.numOfPushUps + 1⟩, some s.numOfPushUps)
  else if s.isDownPushUp = false ∧ m.z < m.x then
    (⟨true, s.numOfPushUps⟩, none)
  else
    (s, none)

/-- The `while (numOfPushUps < REPS)` loop of `trackPushUps`. -/
def pushupRun (s : PushUpState) : List Sample → PushUpState × List (Option Nat)
  | [] => (s, [])
  | m :: ms =>
    if s.numOfPushUps < REPS then
      let p := pushupStepEv s m
      let r := pushupRun p.1 ms
      (r.1, p.2 :: r.2)
    else
      (s, [])

/-- State local to one pass of `trackSquats`: the phase flag `isDownSquat`
(`true` = downwards motion, `false` = upwards motion) and the global
counter `numOfSquats`. -/
structure SquatState where
  isDownSquat : Bool
  numOfSquats : Nat
deriving DecidableEq

/-- One iteration of the `trackSquats` while-loop body: if the phase was
down and `Z > Y`, flip to up, light LED `numOfSquats`, and increment;
else if the phase was up and `Z < Y`, flip to down. -/
def squatStepEv (s : SquatState) (m : Sample) : SquatState × Option Nat :=
  if s.isDownSquat = true ∧ m.z > m.y then
    (⟨false, s.numOfSquats + 1⟩, some s.numOfSquats)
  else if s.isDownSquat = false ∧ m.z < m.y then
    (⟨true, s.numOfSquats⟩, none)
  else
    (s, none)

/-- The `while (numOfSquats < REPS)` loop of `trackSquats`. -/
def squatRun (s : SquatState) : List Sample → SquatState × List (Option Nat)
  | [] => (s, [])
  | m :: ms =>
    if s.numOfSquats < REPS then
      let p := squatStepEv s m
      let r := squatRun p.1 ms
      (r.1, p.2 :: r.2)
    else
      (s, [])

/-- State local to one pass of `trackJumpJacks`: the local jump counter
`totalJumps` (initialised to 1 by the sketch, since one jump was already
observed during classification) and the global counter `numOfJumpJacks`. -/
structure JumpJackState where
  totalJumps : Nat
  numOfJumpJacks : Nat
deriving DecidableEq

/-- One iteration of the `trackJumpJacks` while-loop body: a jump is
registered whenever `X ≤ -15`; every jump that makes `totalJumps` even
lights LED `numOfJumpJacks` and increments the jumping-jack counter. -/
def jumpJackStepEv (s : JumpJackState) (m : Sample) : JumpJackState × Option Nat :=
  if m.x ≤ -15 then
    if (s.totalJumps + 1) % 2 = 0 then
      (⟨s.totalJumps + 1, s.numOfJumpJacks + 1⟩, some s.numOfJumpJacks)
    else
      (⟨s.totalJumps + 1, s.numOfJumpJacks⟩, none)
  else
    (s, none)

/-- The `while (numOfJumpJacks < REPS)` loop of `trackJumpJacks`. -/
def jumpJackRun (s : JumpJackState) : List Sample → JumpJackState × List (Option Nat)
  | [] => (s, [])
  | m :: ms =>
    if s.numOfJumpJacks < REPS then
      let p := jumpJackStepEv s m
      let r := jumpJackRun p.1 ms
      (r.1, p.2 :: r.2)
    else
      (s, [])

/-- The sketch's global variables: the four `finished*` routine flags and
the four `numOf*` repetition counters, in declaration order. -/
structure GlobalState where
  finishedJumpJacks : Bool
  finishedSquats : Bool
  finishedSitUps : Bool
  finishedPushUps : Bool
  numOfJumpJacks : Nat
  numOfSquats : Nat
  numOfSitUps : Nat
  numOfPushUps : Nat
deriving DecidableEq

/-- The four exercise kinds. -/
inductive ExerciseKind where
  | jumpingJacks
  | squats
  | situps
  | pushups
deriving DecidableEq

/-- The `finished*` flag of a kind. -/
def GlobalState.finished (g : GlobalState) : ExerciseKind → Bool
  | .jumpingJacks => g.finishedJumpJacks
  | .squats => g.finishedSquats
  | .situps => g.finishedSitUps
  | .pushups => g.finishedPushUps

/-- The `numOf*` repetition counter of a kind. -/
def GlobalState.reps (g : GlobalState) : ExerciseKind → Nat
  | .jumpingJacks => g.numOfJumpJacks
  | .squats => g.numOfSquats
  | .situps => g.numOfSitUps
  | .pushups => g.numOfPushUps

/-- The power-on state: all flags false, all counters zero. -/
def initialGlobal : GlobalState := ⟨false, false, false, false, 0, 0, 0, 0⟩

/-- The `trackSitUps` routine as a transformer of the global state: runs the situp
loop from a fresh down phase and the current `numOfSitUps`; if the loop
guard can fail (counter reached `REPS`) control returns with
`finishedSitUps` set, otherwise (`none`) the loop is still blocked
waiting for more samples. -/
def trackSitUpsG (g : GlobalState) (ms : List Sample) : Option GlobalState :=
  if REPS ≤ (situpRun ⟨false, g.numOfSitUps⟩ ms).1.numOfSitUps then
    some ⟨g.finishedJumpJacks, g.finishedSquats, true, g.finishedPushUps,
      g.numOfJumpJacks, g.numOfSquats,
      (situpRun ⟨false, g.numOfSitUps⟩ ms).1.numOfSitUps, g.numOfPushUps⟩
  else
    none

/-- The `trackPushUps` routine as a transformer of the global state. -/
def trackPushUpsG (g : GlobalState) (ms : List Sample) : Option GlobalState :=
  if REPS ≤ (pushupRun ⟨false, g.numOfPushUps⟩ ms).1.numOfPushUps then
    some ⟨g.finishedJumpJacks, g.finishedSquats, g.finishedSitUps, true,
      g.numOfJumpJacks, g.numOfSquats, g.numOfSitUps,
      (pushupRun ⟨false, g.numOfPushUps⟩ ms).1.numOfPushUps⟩
  else
    none

/-- The `trackSquats` routine as a transformer of the global state; note the squat
phase starts as `true` (down), unlike situps and pushups. -/
def trackSquatsG (g : GlobalState) (ms : List Sample) : Option GlobalState :=
  if REPS ≤ (squatRun ⟨true, g.numOfSquats⟩ ms).1.numOfSquats then
    some ⟨g.finishedJumpJacks, true, g.finishedSitUps, g.finishedPushUps,
      g.numOfJumpJacks, (squatRun ⟨true, g.numOfSquats⟩ ms).1.numOfSquats,
      g.numOfSitUps, g.numOfPushUps⟩
  else
    none

/-- The `trackJumpJacks` routine as a transformer of the global state; the local
`totalJumps` counter starts at 1. -/
def trackJumpJacksG (g : GlobalState) (ms : List Sample) : Option GlobalState :=
  if REPS ≤ (jumpJackRun ⟨1, g.numOfJumpJacks⟩ ms).1.numOfJumpJacks then
    some ⟨true, g.finishedSquats, g.finishedSitUps, g.finishedPushUps,
      (jumpJackRun ⟨1, g.numOfJumpJacks⟩ ms).1.numOfJumpJacks,
      g.numOfSquats, g.numOfSitUps, g.numOfPushUps⟩
  else
    none

/-- A user-visible event of one tracking routine: LED `led` lit with a
short tone for one counted repetition, or the victory-song /
full-LED-fill routine-complete celebration. -/
inductive FitEvent where
  | rep (led : Nat)
  | complete
deriving DecidableEq

/-- The event trace of one `trackSquats` pass: one `rep` event per counted
squat, and the `complete` event (victory song, full blue fill) exactly
when the loop exited, i.e. after the counter reached `REPS`. -/
def trackSquatsEvents (g : GlobalState) (ms : List Sample) : List FitEvent :=
  let r := squatRun ⟨true, g.numOfSquats⟩ ms
  r.2.filterMap (fun e => e.map FitEvent.rep) ++
    (if REPS ≤ r.1.numOfSquats then [FitEvent.complete] else [])

/-- The two possible outcomes of the upright disambiguation loop. -/
inductive UprightPick where
  | jj
  | sq
deriving DecidableEq

/-- The `while (true)` disambiguation loop inside `beginTracking` for an
upright user (`X < Y < Z`): each tick reads one sample; if jumping jacks
are unfinished and `X ≤ -15` it picks jumping jacks, else if squats are
unfinished and `Z < Y` it picks squats; otherwise it keeps looping.
Returns the pick and the unread remainder of the stream, or `none` when
the stream is exhausted with the loop still spinning. -/
def disambiguate (g : GlobalState) : List Sample → Option (UprightPick × List Sample)
  | [] => none
  | m :: ms =>
    if g.finishedJumpJacks = false ∧ m.x ≤ -15 then
      some (UprightPick.jj, ms)
    else if g.finishedSquats = false ∧ m.z < m.y then
      some (UprightPick.sq, ms)
    else
      disambiguate g ms

/-- The `beginTracking` routine as a function of the initial orientation sample and
the subsequent sample stream.  Result: the exercise kind bound to the
session (if any) and the global state observed back at the idle menu —
`none` when control never returns (a loop still blocked after the
stream). -/
def beginTrackingRun (g : GlobalState) (init : Sample) (stream : List Sample) :
    Option ExerciseKind × Option GlobalState :=
  if init.x < init.y ∧ init.y < init.z then
    match disambiguate g stream with
    | some (UprightPick.jj, rest) =>
      (some ExerciseKind.jumpingJacks, trackJumpJacksG g rest)
    | some (UprightPick.sq, rest) =>
      (some ExerciseKind.squats, trackSquatsG g rest)
    | none => (none, none)
  else if g.finishedPushUps = false ∧ init.y > init.z ∧ init.z > init.x then
    (some ExerciseKind.pushups, trackPushUpsG g stream)
  else if g.finishedSitUps = false ∧ init.z > init.x ∧ init.x > init.y then
    (some ExerciseKind.situps, trackSitUpsG g stream)
  else
    (none, some g)

/-- The device's lifetime after power-on: a list of button presses, each
with its classification sample and subsequent sample stream, folded
through `beginTracking`; `none` as soon as one session blocks forever. -/
def runSessions (g : GlobalState) : List (Sample × List Sample) → Option GlobalState
  | [] => some g
  | (i, s) :: rest =>
    match (beginTrackingRun g i s).2 with
    | some g2 => runSessions g2 rest
    | none => none

/-- The `showMainMenu` display: after clearing all pixels, the list of
`(index, color)` pairs lit on the idle menu, one color-coded pair per
unfinished exercise. -/
def showMainMenu (g : GlobalState) : List (Nat × Nat) :=
  (if g.finishedJumpJacks = false then [(0, GREEN), (1, GREEN)] else []) ++
    (if g.finishedSquats = false then [(3, BLUE), (4, BLUE)] else []) ++
    (if g.finishedSitUps = false then [(5, PURPLE), (6, PURPLE)] else []) ++
    (if g.finishedPushUps = false then [(8, PINK), (9, PINK)] else [])

/-- The idle-menu LED index pair of each kind. -/
def ledPair : ExerciseKind → Nat × Nat
  | .jumpingJacks => (0, 1)
  | .squats => (3, 4)
  | .situps => (5, 6)
  | .pushups => (8, 9)

/-- The parity "phase" of the jumping-jack detector: the threshold check
is edge-free, so the only phase-like state is the parity of
`totalJumps`, which decides whether the next jump completes a pair. -/
def jumpJackPhase (s : JumpJackState) : Nat := s.totalJumps % 2

/-- A squat-session sample with `Z < Y` (downward motion). -/
def squatDownSample : Sample := ⟨0, 5, 1⟩

/-- A squat-session sample with `Z > Y` (upward motion). -/
def squatUpSample : Sample := ⟨0, 1, 5⟩

/-- Ten full down-then-up squat cycles. -/
def squatTenCycles : List Sample :=
  (List.replicate 10 [squatDownSample, squatUpSample]).flatten

/-- A qualifying jumping-jack sample: `X = -20 ≤ -15`. -/
def jumpSample : Sample := ⟨-20, 0, 0⟩

/-- A global state in which only jumping jacks and squats are finished. -/
def bothUprightFinished : GlobalState := ⟨true, true, false, false, 10, 10, 0, 0⟩

/-! ## Helper lemmas about the four detector loops -/

theorem situpStepEv_count (s : SitUpState) (m : Sample) :
    s.numOfSitUps ≤ (situpStepEv s m).1.numOfSitUps ∧
      (situpStepEv s m).1.numOfSitUps ≤ s.numOfSitUps + 1 := by
  unfold situpStepEv
  split
  · simp
  · split <;> simp

theorem pushupStepEv_count (s : PushUpState) (m : Sample) :
    s.numOfPushUps ≤ (pushupStepEv s m).1.numOfPushUps ∧
      (pushupStepEv s m).1.numOfPushUps ≤ s.numOfPushUps + 1 := by
  unfold pushupStepEv
  split
  · simp
  · split <;> simp

theorem squatStepEv_count (s : SquatState) (m : Sample) :
    s.numOfSquats ≤ (squatStepEv s m).1.numOfSquats ∧
      (squatStepEv s m).1.numOfSquats ≤ s.numOfSquats + 1 := by
  unfold squatStepEv
  split
  · simp
  · split <;> simp

theorem jumpJackStepEv_count (s : JumpJackState) (m : Sample) :
    s.numOfJumpJacks ≤ (jumpJackStepEv s m).1.numOfJumpJacks ∧
      (jumpJackStepEv s m).1.numOfJumpJacks ≤ s.numOfJumpJacks + 1 := by
  unfold jumpJackStepEv
  split
  · split <;> simp
  · simp

theorem situpRun_count_mono (ms : List Sample) (s : SitUpState) :
    s.numOfSitUps ≤ (situpRun s ms).1.numOfSitUps := by
  induction ms generalizing s with
  | nil => simp [situpRun]
  | cons m ms ih =>
    rw [situpRun]
    split
    · exact le_trans (situpStepEv_count s m).1 (ih _)
    · exact le_refl _

theorem pushupRun_count_mono (ms : List Sample) (s : PushUpState) :
    s.numOfPushUps ≤ (pushupRun s ms).1.numOfPushUps := by
  induction ms generalizing s with
  | nil => simp [pushupRun]
  | cons m ms ih =>
    rw [pushupRun]
    split
    · exact le_trans (pushupStepEv_count s m).1 (ih _)
    · exact le_refl _

theorem squatRun_count_mono (ms : List Sample) (s : SquatState) :
    s.numOfSquats ≤ (squatRun s ms).1.numOfSquats := by
  induction ms generalizing s with
  | nil => simp [squatRun]
  | cons m ms ih =>
    rw [squatRun]
    split
    · exact le_trans (squatStepEv_count s m).1 (ih _)
    · exact le_refl _

theorem jumpJackRun_count_mono (ms : List Sample) (s : JumpJackState) :
    s.numOfJumpJacks ≤ (jumpJackRun s ms).1.numOfJumpJacks := by
  induction ms generalizing s with
  | nil => simp [jumpJackRun]
  | cons m ms ih =>
    rw [jumpJackRun]
    split
    · exact le_trans (jumpJackStepEv_count s m).1 (ih _)
    · exact le_refl _

theorem situpRun_count_le (ms : List Sample) (s : SitUpState)
    (h : s.numOfSitUps ≤ REPS) : (situpRun s ms).1.numOfSitUps ≤ REPS := by
  induction ms generalizing s with
  | nil => simpa [situpRun]
  | cons m ms ih =>
    rw [situpRun]
    split
    · exact ih _ (le_trans (situpStepEv_count s m).2 (by omega))
    · simpa

theorem pushupRun_count_le (ms : List Sample) (s : PushUpState)
    (h : s.numOfPushUps ≤ REPS) : (pushupRun s ms).1.numOfPushUps ≤ REPS := by
  induction ms generalizing s with
  | nil => simpa [pushupRun]
  | cons m ms ih =>
    rw [pushupRun]
    split
    · exact ih _ (le_trans (pushupStepEv_count s m).2 (by omega))
    · simpa

theorem squatRun_count_le (ms : List Sample) (s : SquatState)
    (h : s.numOfSquats ≤ REPS) : (squatRun s ms).1.numOfSquats ≤ REPS := by
  induction ms generalizing s with
  | nil => simpa [squatRun]
  | cons m ms ih =>
    rw [squatRun]
    split
    · exact ih _ (le_trans (squatStepEv_count s m).2 (by omega))
    · simpa

theorem jumpJackRun_count_le (ms : List Sample) (s : JumpJackState)
    (h : s.numOfJumpJacks ≤ REPS) : (jumpJackRun s ms).1.numOfJumpJacks ≤ REPS := by
  induction ms generalizing s with
  | nil => simpa [jumpJackRun]
  | cons m ms ih =>
    rw [jumpJackRun]
    split
    · exact ih _ (le_trans (jumpJackStepEv_count s m).2 (by omega))
    · simpa

theorem situpStepEv_phase_fixed (a : SitUpState) (m : Sample)
    (h : (situpStepEv a m).1.isUpSitUp = a.isUpSitUp) :
    (situpStepEv a m).1.numOfSitUps = a.numOfSitUps := by
  revert h
  unfold situpStepEv
  split
  · simp_all
  · split <;> simp_all

theorem pushupStepEv_phase_fixed (b : PushUpState) (m : Sample)
    (h : (pushupStepEv b m).1.isDownPushUp = b.isDownPushUp) :
    (pushupStepEv b m).1.numOfPushUps = b.numOfPushUps := by
  revert h
  unfold pushupStepEv
  split
  · simp_all
  · split <;> simp_all

theorem squatStepEv_phase_fixed (c : SquatState) (m : Sample)
    (h : (squatStepEv c m).1.isDownSquat = c.isDownSquat) :
    (squatStepEv c m).1.numOfSquats = c.numOfSquats := by
  revert h
  unfold squatStepEv
  split
  · simp_all
  · split <;> simp_all

theorem jumpJackStepEv_phase_fixed (d : JumpJackState) (m : Sample)
    (h : jumpJackPhase (jumpJackStepEv d m).1 = jumpJackPhase d) :
    (jumpJackStepEv d m).1.numOfJumpJacks = d.numOfJumpJacks := by
  revert h
  unfold jumpJackStepEv jumpJackPhase
  split
  · split
    · simp_all
      omega
    · simp_all
  · simp

theorem situpStepEv_qualifying (a : SitUpState) (m : Sample)
    (h1 : a.isUpSitUp = true) (h2 : m.x > m.y) :
    situpStepEv a m = (⟨false, a.numOfSitUps + 1⟩, some a.numOfSitUps) := by
  unfold situpStepEv
  rw [if_pos ⟨h1, h2⟩]

theorem situpStepEv_nonqualifying (a : SitUpState) (m : Sample)
    (h : ¬(a.isUpSitUp = true ∧ m.x > m.y)) :
    (situpStepEv a m).1.numOfSitUps = a.numOfSitUps ∧ (situpStepEv a m).2 = none := by
  unfold situpStepEv
  rw [if_neg h]
  split <;> simp

theorem pushupStepEv_qualifying (b : PushUpState) (m : Sample)
    (h1 : b.isDownPushUp = true) (h2 : m.z > m.x) :
    pushupStepEv b m = (⟨false, b.numOfPushUps + 1⟩, some b.numOfPushUps) := by
  unfold pushupStepEv
  rw [if_pos ⟨h1, h2⟩]

theorem pushupStepEv_nonqualifying (b : PushUpState) (m : Sample)
    (h : ¬(b.isDownPushUp = true ∧ m.z > m.x)) :
    (pushupStepEv b m).1.numOfPushUps = b.numOfPushUps ∧ (pushupStepEv b m).2 = none := by
  unfold pushupStepEv
  rw [if_neg h]
  split <;> simp

theorem squatStepEv_qualifying (c : SquatState) (m : Sample)
    (h1 : c.isDownSquat = true) (h2 : m.z > m.y) :
    squatStepEv c m = (⟨false, c.numOfSquats + 1⟩, some c.numOfSquats) := by
  unfold squatStepEv
  rw [if_pos ⟨h1, h2⟩]

theorem squatStepEv_nonqualifying (c : SquatState) (m : Sample)
    (h : ¬(c.isDownSquat = true ∧ m.z > m.y)) :
    (squatStepEv c m).1.numOfSquats = c.numOfSquats ∧ (squatStepEv c m).2 = none := by
  unfold squatStepEv
  rw [if_neg h]
  split <;> simp

theorem jumpJackStepEv_qualifying (d : JumpJackState) (m : Sample)
    (h1 : m.x ≤ -15) (h2 : (d.totalJumps + 1) % 2 = 0) :
    jumpJackStepEv d m = (⟨d.totalJumps + 1, d.numOfJumpJacks + 1⟩, some d.numOfJumpJacks) := by
  unfold jumpJackStepEv
  rw [if_pos h1, if_pos h2]

theorem jumpJackStepEv_nonqualifying (d : JumpJackState) (m : Sample)
    (h : ¬(m.x ≤ -15 ∧ (d.totalJumps + 1) % 2 = 0)) :
    (jumpJackStepEv d m).1.numOfJumpJacks = d.numOfJumpJacks ∧
      (jumpJackStepEv d m).2 = none := by
  unfold jumpJackStepEv
  split
  · split
    · exact absurd ⟨by assumption, by assumption⟩ h
    · simp
  · simp

/-! ## Claim theorems -/

/-- C1: For every sequence of motion samples fed to any of the four
repetition detectors, the repetition counter is monotonically
non-decreasing and stays in `[0, REPS]` (the lower bound is by the `Nat`
type), and each loop iteration increments it by exactly 1 on the
qualifying transition back to the reference phase — up→down for situps,
down→up for pushups and squats, a jump making `totalJumps` even for
jumping jacks — and leaves it unchanged, with no repetition event, in
every other case, in particular on the transition entering the active
phase. -/
theorem c1_rep_counter_monotone_bounded
    (ms : List Sample) (m : Sample)
    (a : SitUpState) (b : PushUpState) (c : SquatState) (d : JumpJackState)
    (ha : a.numOfSitUps ≤ REPS) (hb : b.numOfPushUps ≤ REPS)
    (hc : c.numOfSquats ≤ REPS) (hd : d.numOfJumpJacks ≤ REPS) :
    (a.numOfSitUps ≤ (situpRun a ms).1.numOfSitUps ∧
      (situpRun a ms).1.numOfSitUps ≤ REPS) ∧
    (b.numOfPushUps ≤ (pushupRun b ms).1.numOfPushUps ∧
      (pushupRun b ms).1.numOfPushUps ≤ REPS) ∧
    (c.numOfSquats ≤ (squatRun c ms).1.numOfSquats ∧
      (squatRun c ms).1.numOfSquats ≤ REPS) ∧
    (d.numOfJumpJacks ≤ (jumpJackRun d ms).1.numOfJumpJacks ∧
      (jumpJackRun d ms).1.numOfJumpJacks ≤ REPS) ∧
    (a.isUpSitUp = true → m.x > m.y →
      situpStepEv a m = (⟨false, a.numOfSitUps + 1⟩, some a.numOfSitUps)) ∧
    (¬(a.isUpSitUp = true ∧ m.x > m.y) →
      (situpStepEv a m).1.numOfSitUps = a.numOfSitUps ∧ (situpStepEv a m).2 = none) ∧
    (b.isDownPushUp = true → m.z > m.x →
      pushupStepEv b m = (⟨false, b.numOfPushUps + 1⟩, some b.numOfPushUps)) ∧
    (¬(b.isDownPushUp = true ∧ m.z > m.x) →
      (pushupStepEv b m).1.numOfPushUps = b.numOfPushUps ∧ (pushupStepEv b m).2 = none) ∧
    (c.isDownSquat = true → m.z > m.y →
      squatStepEv c m = (⟨false, c.numOfSquats + 1⟩, some c.numOfSquats)) ∧
    (¬(c.isDownSquat = true ∧ m.z > m.y) →
      (squatStepEv c m).1.numOfSquats = c.numOfSquats ∧ (squatStepEv c m).2 = none) ∧
    (m.x ≤ -15 → (d.totalJumps + 1) % 2 = 0 →
      jumpJackStepEv d m = (⟨d.totalJumps + 1, d.numOfJumpJacks + 1⟩, some d.numOfJumpJacks)) ∧
    (¬(m.x ≤ -15 ∧ (d.totalJumps + 1) % 2 = 0) →
      (jumpJackStepEv d m).1.numOfJumpJacks = d.numOfJumpJacks ∧
        (jumpJackStepEv d m).2 = none) :=
  ⟨⟨situpRun_count_mono ms a, situpRun_count_le ms a ha⟩,
    ⟨pushupRun_count_mono ms b, pushupRun_count_le ms b hb⟩,
    ⟨squatRun_count_mono ms c, squatRun_count_le ms c hc⟩,
    ⟨jumpJackRun_count_mono ms d, jumpJackRun_count_le ms d hd⟩,
    situpStepEv_qualifying a m,
    situpStepEv_nonqualifying a m,
    pushupStepEv_qualifying b m,
    pushupStepEv_nonqualifying b m,
    squatStepEv_qualifying c m,
    squatStepEv_nonqualifying c m,
    jumpJackStepEv_qualifying d m,
    jumpJackStepEv_nonqualifying d m⟩

/-- Witness for C1 at a concrete detector state and sample stream. -/
theorem c1_rep_counter_monotone_bounded_witness :
    (0 : Nat) ≤ REPS ∧
      (situpRun ⟨false, 0⟩ [⟨1, 2, 3⟩]).1.numOfSitUps ≤ REPS :=
  ⟨by decide,
    (c1_rep_counter_monotone_bounded [⟨1, 2, 3⟩] ⟨1, 2, 3⟩
      ⟨false, 0⟩ ⟨false, 0⟩ ⟨true, 0⟩ ⟨1, 0⟩
      (by decide) (by decide) (by decide) (by decide)).1.2⟩

/-- C4: For every detector and every detector state, a step that leaves
the detector's phase unchanged (`isUpSitUp`, `isDownPushUp`,
`isDownSquat`, or the parity of `totalJumps` for jumping jacks) never
increments that exercise's repetition counter, so re-feeding an
identical sample with no phase change is idempotent on the counter. -/
theorem c4_no_phase_change_no_increment
    (a : SitUpState) (b : PushUpState) (c : SquatState) (d : JumpJackState) (m : Sample)
    (ha : (situpStepEv a m).1.isUpSitUp = a.isUpSitUp)
    (hb : (pushupStepEv b m).1.isDownPushUp = b.isDownPushUp)
    (hc : (squatStepEv c m).1.isDownSquat = c.isDownSquat)
    (hd : jumpJackPhase (jumpJackStepEv d m).1 = jumpJackPhase d) :
    (situpStepEv a m).1.numOfSitUps = a.numOfSitUps ∧
    (pushupStepEv b m).1.numOfPushUps = b.numOfPushUps ∧
    (squatStepEv c m).1.numOfSquats = c.numOfSquats ∧
    (jumpJackStepEv d m).1.numOfJumpJacks = d.numOfJumpJacks :=
  ⟨situpStepEv_phase_fixed a m ha, pushupStepEv_phase_fixed b m hb,
    squatStepEv_phase_fixed c m hc, jumpJackStepEv_phase_fixed d m hd⟩

/-- Witness for C4 at a concrete state and sample (a down-phase sample
fed to an already-down situp detector). -/
theorem c4_no_phase_change_no_increment_witness :
    (situpStepEv ⟨false, 3⟩ ⟨5, 1, 5⟩).1.numOfSitUps = 3 :=
  (c4_no_phase_change_no_increment ⟨false, 3⟩ ⟨false, 3⟩ ⟨false, 3⟩ ⟨2, 3⟩ ⟨5, 1, 5⟩
    (by decide) (by decide) (by decide) (by decide)).1

/-- C6: Feeding the squat detector, from the power-on state, ten full
down-then-up cycles on `z` versus `y` yields `numOfSquats = 10` and
`finishedSquats = true`, and the event trace carries the ten repetition
events followed by exactly one routine-complete event, fired after the
10th repetition. -/
theorem c6_squats_ten_cycles :
    trackSquatsG initialGlobal squatTenCycles =
      some ⟨false, true, false, false, 0, 10, 0, 0⟩ ∧
    trackSquatsEvents initialGlobal squatTenCycles =
      [FitEvent.rep 0, FitEvent.rep 1, FitEvent.rep 2, FitEvent.rep 3,
        FitEvent.rep 4, FitEvent.rep 5, FitEvent.rep 6, FitEvent.rep 7,
        FitEvent.rep 8, FitEvent.rep 9, FitEvent.complete] ∧
    (trackSquatsEvents initialGlobal squatTenCycles).count FitEvent.complete = 1 := by
  refine ⟨by decide, by decide, by decide⟩

/-- C7: The jumping-jack detector started with `totalJumps = 1`, fed four
consecutive qualifying samples with `x = -20 ≤ -15`, emits repetition
events exactly on the two samples that make the jump count even
(`totalJumps` reaching 2 and 4) and ends with `numOfJumpJacks = 2`. -/
theorem c7_jumpjacks_four_jumps :
    jumpJackStepEv ⟨1, 0⟩ jumpSample = (⟨2, 1⟩, some 0) ∧
    jumpJackStepEv ⟨2, 1⟩ jumpSample = (⟨3, 1⟩, none) ∧
    jumpJackStepEv ⟨3, 1⟩ jumpSample = (⟨4, 2⟩, some 1) ∧
    jumpJackStepEv ⟨4, 2⟩ jumpSample = (⟨5, 2⟩, none) ∧
    jumpJackRun ⟨1, 0⟩ [jumpSample, jumpSample, jumpSample, jumpSample] =
      (⟨5, 2⟩, [some 0, none, some 1, none]) := by
  refine ⟨by decide, by decide, by decide, by decide, by decide⟩

/-- C8: The situp detector in its initial state (down phase, zero count),
fed `x=5,y=1` (down) then `x=1,y=5` (up) then `x=5,y=1` (down), emits
exactly one repetition event, on the third sample, and ends with
`numOfSitUps = 1`. -/
theorem c8_situps_one_rep :
    situpRun ⟨false, 0⟩ [⟨5, 1, 0⟩, ⟨1, 5, 0⟩, ⟨5, 1, 0⟩] =
      (⟨false, 1⟩, [none, none, some 0]) := by
  decide

theorem situpRun_stays_down (ms : List Sample) (s : SitUpState)
    (hphase : s.isUpSitUp = false) (hms : ∀ m ∈ ms, ¬ m.x < m.y) :
    (situpRun s ms).1 = s ∧ ∀ e ∈ (situpRun s ms).2, e = none := by
  induction ms generalizing s with
  | nil => simp [situpRun]
  | cons m ms ih =>
    rw [situpRun]
    split
    · have hstep : situpStepEv s m = (s, none) := by
        unfold situpStepEv
        rw [if_neg, if_neg]
        · intro hh
          exact hms m (by simp) hh.2
        · intro hh
          rw [hphase] at hh
          exact Bool.false_ne_true hh.1
      rw [hstep]
      have ihr := ih s hphase (fun m2 hm2 => hms m2 (by simp [hm2]))
      refine ⟨ihr.1, ?_⟩
      intro e he
      rcases List.mem_cons.mp he with h1 | h2
      · exact h1
      · exact ihr.2 e h2
    · simp

theorem pushupRun_stays_up (ms : List Sample) (s : PushUpState)
    (hphase : s.isDownPushUp = false) (hms : ∀ m ∈ ms, ¬ m.z < m.x) :
    (pushupRun s ms).1 = s ∧ ∀ e ∈ (pushupRun s ms).2, e = none := by
  induction ms generalizing s with
  | nil => simp [pushupRun]
  | cons m ms ih =>
    rw [pushupRun]
    split
    · have hstep : pushupStepEv s m = (s, none) := by
        unfold pushupStepEv
        rw [if_neg, if_neg]
        · intro hh
          exact hms m (by simp) hh.2
        · intro hh
          rw [hphase] at hh
          exact Bool.false_ne_true hh.1
      rw [hstep]
      have ihr := ih s hphase (fun m2 hm2 => hms m2 (by simp [hm2]))
      refine ⟨ihr.1, ?_⟩
      intro e he
      rcases List.mem_cons.mp he with h1 | h2
      · exact h1
      · exact ihr.2 e h2
    · simp

/-- C10: The squat detector is created with its phase already down
(`isDownSquat = true`), so the very first sample of a squat session with
`z > y` immediately emits a repetition event; the situp and pushup
detectors are created in their reference phases (`isUpSitUp = false`,
`isDownPushUp = false`), so as long as no sample enters the active phase
(`x < y` for situps, `z < x` for pushups) they emit no repetition event
and their counters stay at 0. -/
theorem c10_initial_phase_asymmetry
    (m : Sample) (rest ms1 ms2 : List Sample)
    (hzy : m.z > m.y)
    (h1 : ∀ m2 ∈ ms1, ¬ m2.x < m2.y)
    (h2 : ∀ m2 ∈ ms2, ¬ m2.z < m2.x) :
    squatStepEv ⟨true, 0⟩ m = (⟨false, 1⟩, some 0) ∧
    (squatRun ⟨true, 0⟩ (m :: rest)).2.head? = some (some 0) ∧
    (situpRun ⟨false, 0⟩ ms1).1.numOfSitUps = 0 ∧
    (∀ e ∈ (situpRun ⟨false, 0⟩ ms1).2, e = none) ∧
    (pushupRun ⟨false, 0⟩ ms2).1.numOfPushUps = 0 ∧
    (∀ e ∈ (pushupRun ⟨false, 0⟩ ms2).2, e = none) := by
  have hsq : squatStepEv ⟨true, 0⟩ m = (⟨false, 1⟩, some 0) :=
    squatStepEv_qualifying ⟨true, 0⟩ m rfl hzy
  have hsu := situpRun_stays_down ms1 ⟨false, 0⟩ rfl h1
  have hpu := pushupRun_stays_up ms2 ⟨false, 0⟩ rfl h2
  refine ⟨hsq, ?_, ?_, hsu.2, ?_, hpu.2⟩
  · rw [squatRun]
    rw [if_pos (by decide), hsq]
    simp
  · rw [hsu.1]
  · rw [hpu.1]

/-- Witness for C10 at concrete samples. -/
theorem c10_initial_phase_asymmetry_witness :
    squatStepEv ⟨true, 0⟩ ⟨0, 1, 5⟩ = (⟨false, 1⟩, some 0) :=
  (c10_initial_phase_asymmetry ⟨0, 1, 5⟩ [] [⟨5, 1, 0⟩] [⟨0, 1, 5⟩]
    (by decide) (by decide) (by decide)).1

/-- C2: `beginTracking` classification as a pure function of the single
orientation sample: with `x < y < z` the session kind can only come out
of the JumpingJacks/Squats disambiguation loop, never directly Situps or
Pushups; with `y > z` and `z > x` it classifies Pushups unless that
routine is already finished, in which case nothing is selected and
control returns to the idle menu; with `x = y = z` every branch misses,
no kind is selected and no session starts. -/
theorem c2_classifier_orientation (g : GlobalState) (i : Sample) (stream : List Sample) :
    (i.x < i.y → i.y < i.z →
      (beginTrackingRun g i stream).1 ≠ some ExerciseKind.situps ∧
      (beginTrackingRun g i stream).1 ≠ some ExerciseKind.pushups ∧
      ((beginTrackingRun g i stream).1 = some ExerciseKind.jumpingJacks ∨
        (beginTrackingRun g i stream).1 = some ExerciseKind.squats ∨
        (beginTrackingRun g i stream).1 = none)) ∧
    (i.y > i.z → i.z > i.x → g.finishedPushUps = false →
      (beginTrackingRun g i stream).1 = some ExerciseKind.pushups) ∧
    (i.y > i.z → i.z > i.x → g.finishedPushUps = true →
      (beginTrackingRun g i stream).1 = none ∧
      (beginTrackingRun g i stream).2 = some g) ∧
    (i.x = i.y → i.y = i.z →
      (beginTrackingRun g i stream).1 = none ∧
      (beginTrackingRun g i stream).2 = some g) := by
  refine ⟨?_, ?_, ?_, ?_⟩
  · intro hxy hyz
    unfold beginTrackingRun
    rw [if_pos ⟨hxy, hyz⟩]
    cases hdis : disambiguate g stream with
    | none => simp
    | some pr =>
      obtain ⟨pick, rest⟩ := pr
      cases pick <;> simp
  · intro hyz hzx hfin
    unfold beginTrackingRun
    rw [if_neg (by intro hh; omega), if_pos ⟨hfin, hyz, hzx⟩]
  · intro hyz hzx hfin
    unfold beginTrackingRun
    rw [if_neg (by intro hh; omega), if_neg (by rw [hfin]; simp),
      if_neg (by intro hh; omega)]
    exact ⟨rfl, rfl⟩
  · intro hxy hyz
    unfold beginTrackingRun
    rw [if_neg (by intro hh; omega), if_neg (by intro hh; omega),
      if_neg (by intro hh; omega)]
    exact ⟨rfl, rfl⟩

/-- Witness for C2 at a concrete tied sample. -/
theorem c2_classifier_orientation_witness :
    (beginTrackingRun initialGlobal ⟨4, 4, 4⟩ []).1 = none ∧
    (beginTrackingRun initialGlobal ⟨4, 4, 4⟩ []).2 = some initialGlobal :=
  (c2_classifier_orientation initialGlobal ⟨4, 4, 4⟩ []).2.2.2 rfl rfl

theorem disambiguate_none_of_finished (g : GlobalState) (stream : List Sample)
    (hjj : g.finishedJumpJacks = true) (hsq : g.finishedSquats = true) :
    disambiguate g stream = none := by
  induction stream with
  | nil => rfl
  | cons m ms ih =>
    have h1 : ¬(g.finishedJumpJacks = false ∧ m.x ≤ -15) := by
      rw [hjj]; simp
    have h2 : ¬(g.finishedSquats = false ∧ m.z < m.y) := by
      rw [hsq]; simp
    rw [disambiguate, if_neg h1, if_neg h2]
    exact ih

/-- C3 counterexample: with jumping jacks and squats both already
finished and an upright orientation sample `(1, 2, 3)`, `beginTracking`
does not return to the idle menu on the subsequent stream
`[(-20, 0, 0)]`: the claim's promised return to Idle fails. -/
theorem c3_counterexample_no_return_to_idle :
    bothUprightFinished.finishedJumpJacks = true ∧
    bothUprightFinished.finishedSquats = true ∧
    (1 : Int) < 2 ∧ (2 : Int) < 3 ∧
    (beginTrackingRun bothUprightFinished ⟨1, 2, 3⟩ [⟨-20, 0, 0⟩]).2 = none := by
  refine ⟨rfl, rfl, by decide, by decide, by decide⟩

/-- C3 amended: when the initial orientation sample is upright
(`x < y < z`) but both JumpingJacks and Squats are already finished, no
tracking session ever starts, and the Session Controller does not return
to Idle either: for every subsequent sample stream the disambiguation
loop keeps spinning with no exit. -/
theorem c3_upright_both_finished_blocks
    (g : GlobalState) (i : Sample) (stream : List Sample)
    (hjj : g.finishedJumpJacks = true) (hsq : g.finishedSquats = true)
    (hxy : i.x < i.y) (hyz : i.y < i.z) :
    beginTrackingRun g i stream = (none, none) := by
  unfold beginTrackingRun
  rw [if_pos ⟨hxy, hyz⟩, disambiguate_none_of_finished g stream hjj hsq]

/-- Witness for the amended C3 at a concrete state and stream. -/
theorem c3_upright_both_finished_blocks_witness :
    beginTrackingRun bothUprightFinished ⟨1, 2, 3⟩ [jumpSample, ⟨0, 5, 1⟩] =
      (none, none) :=
  c3_upright_both_finished_blocks bothUprightFinished ⟨1, 2, 3⟩
    [jumpSample, ⟨0, 5, 1⟩] rfl rfl (by decide) (by decide)

theorem trackSitUpsG_flag_mono (g g2 : GlobalState) (ms : List Sample)
    (k : ExerciseKind) (h : trackSitUpsG g ms = some g2)
    (hk : g.finished k = true) : g2.finished k = true := by
  unfold trackSitUpsG at h
  split at h
  · simp only [Option.some.injEq] at h
    subst h
    cases k <;> simp_all [GlobalState.finished]
  · exact absurd h (by simp)

theorem trackPushUpsG_flag_mono (g g2 : GlobalState) (ms : List Sample)
    (k : ExerciseKind) (h : trackPushUpsG g ms = some g2)
    (hk : g.finished k = true) : g2.finished k = true := by
  unfold trackPushUpsG at h
  split at h
  · simp only [Option.some.injEq] at h
    subst h
    cases k <;> simp_all [GlobalState.finished]
  · exact absurd h (by simp)

theorem trackSquatsG_flag_mono (g g2 : GlobalState) (ms : List Sample)
    (k : ExerciseKind) (h : trackSquatsG g ms = some g2)
    (hk : g.finished k = true) : g2.finished k = true := by
  unfold trackSquatsG at h
  split at h
  · simp only [Option.some.injEq] at h
    subst h
    cases k <;> simp_all [GlobalState.finished]
  · exact absurd h (by simp)

theorem trackJumpJacksG_flag_mono (g g2 : GlobalState) (ms : List Sample)
    (k : ExerciseKind) (h : trackJumpJacksG g ms = some g2)
    (hk : g.finished k = true) : g2.finished k = true := by
  unfold trackJumpJacksG at h
  split at h
  · simp only [Option.some.injEq] at h
    subst h
    cases k <;> simp_all [GlobalState.finished]
  · exact absurd h (by simp)

theorem beginTrackingRun_flag_mono (g g2 : GlobalState) (i : Sample)
    (stream : List Sample) (k : ExerciseKind)
    (h : (beginTrackingRun g i stream).2 = some g2)
    (hk : g.finished k = true) : g2.finished k = true := by
  unfold beginTrackingRun at h
  by_cases hup : i.x < i.y ∧ i.y < i.z
  · rw [if_pos hup] at h
    cases hdis : disambiguate g stream with
    | none =>
      rw [hdis] at h
      exact absurd h (by simp)
    | some pr =>
      rw [hdis] at h
      obtain ⟨pick, rest⟩ := pr
      cases pick with
      | jj => exact trackJumpJacksG_flag_mono g g2 rest k h hk
      | sq => exact trackSquatsG_flag_mono g g2 rest k h hk
  · rw [if_neg hup] at h
    by_cases hpu : g.finishedPushUps = false ∧ i.y > i.z ∧ i.z > i.x
    · rw [if_pos hpu] at h
      exact trackPushUpsG_flag_mono g g2 stream k h hk
    · rw [if_neg hpu] at h
      by_cases hsu : g.finishedSitUps = false ∧ i.z > i.x ∧ i.x > i.y
      · rw [if_pos hsu] at h
        exact trackSitUpsG_flag_mono g g2 stream k h hk
      · rw [if_neg hsu] at h
        have hg : g = g2 := Option.some.inj h
        exact hg ▸ hk

theorem runSessions_flag_mono (sessions : List (Sample × List Sample))
    (g g2 : GlobalState) (k : ExerciseKind)
    (h : runSessions g sessions = some g2) (hk : g.finished k = true) :
    g2.finished k = true := by
  induction sessions generalizing g with
  | nil =>
    rw [runSessions] at h
    exact (Option.some.inj h) ▸ hk
  | cons p rest ih =>
    obtain ⟨i, s⟩ := p
    rw [runSessions] at h
    cases hb : (beginTrackingRun g i s).2 with
    | none =>
      rw [hb] at h
      exact absurd h (by simp)
    | some g3 =>
      rw [hb] at h
      exact ih g3 h (beginTrackingRun_flag_mono g g3 i s k hb hk)

theorem disambiguate_pick_unfinished (g : GlobalState) (stream rest : List Sample)
    (pick : UprightPick) (h : disambiguate g stream = some (pick, rest)) :
    (pick = UprightPick.jj → g.finishedJumpJacks = false) ∧
    (pick = UprightPick.sq → g.finishedSquats = false) := by
  induction stream with
  | nil => exact absurd h (by rw [disambiguate]; simp)
  | cons m ms ih =>
    rw [disambiguate] at h
    split at h
    · simp only [Option.some.injEq, Prod.mk.injEq] at h
      refine ⟨fun _ => ?_, fun hp => ?_⟩
      · exact (by assumption : g.finishedJumpJacks = false ∧ m.x ≤ -15).1
      · rw [← h.1] at hp
        exact absurd hp (by simp)
    · split at h
      · simp only [Option.some.injEq, Prod.mk.injEq] at h
        refine ⟨fun hp => ?_, fun _ => ?_⟩
        · rw [← h.1] at hp
          exact absurd hp (by simp)
        · exact (by assumption : g.finishedSquats = false ∧ m.z < m.y).1
      · exact ih h

theorem beginTrackingRun_selects_unfinished (g : GlobalState) (i : Sample)
    (stream : List Sample) (k : ExerciseKind)
    (h : (beginTrackingRun g i stream).1 = some k) : g.finished k = false := by
  unfold beginTrackingRun at h
  by_cases hup : i.x < i.y ∧ i.y < i.z
  · rw [if_pos hup] at h
    cases hdis : disambiguate g stream with
    | none =>
      rw [hdis] at h
      exact absurd h (by simp)
    | some pr =>
      rw [hdis] at h
      obtain ⟨pick, rest⟩ := pr
      have hu := disambiguate_pick_unfinished g stream rest pick hdis
      cases pick with
      | jj =>
        have hk : k = ExerciseKind.jumpingJacks := by
          simpa using (Option.some.inj h).symm
        rw [hk]
        exact hu.1 rfl
      | sq =>
        have hk : k = ExerciseKind.squats := by
          simpa using (Option.some.inj h).symm
        rw [hk]
        exact hu.2 rfl
  · rw [if_neg hup] at h
    by_cases hpu : g.finishedPushUps = false ∧ i.y > i.z ∧ i.z > i.x
    · rw [if_pos hpu] at h
      have hk : k = ExerciseKind.pushups := by
        simpa using (Option.some.inj h).symm
      rw [hk]
      exact hpu.1
    · rw [if_neg hpu] at h
      by_cases hsu : g.finishedSitUps = false ∧ i.z > i.x ∧ i.x > i.y
      · rw [if_pos hsu] at h
        have hk : k = ExerciseKind.situps := by
          simpa using (Option.some.inj h).symm
        rw [hk]
        exact hsu.1
      · rw [if_neg hsu] at h
        exact absurd h (by simp)

/-- C5: Once the finished flag of an exercise kind is true, it stays true
across every later sequence of sessions the device runs (the only writes
set it to `true`), no later `beginTracking` classification selects that
kind for a session, and that kind's idle-menu LED indicator pair is not
lit by `showMainMenu`. -/
theorem c5_finished_is_permanent (g : GlobalState) (k : ExerciseKind)
    (hk : g.finished k = true) :
    (∀ sessions g2, runSessions g sessions = some g2 → g2.finished k = true) ∧
    (∀ i stream, (beginTrackingRun g i stream).1 ≠ some k) ∧
    (ledPair k).1 ∉ (showMainMenu g).map Prod.fst ∧
    (ledPair k).2 ∉ (showMainMenu g).map Prod.fst := by
  refine ⟨?_, ?_, ?_, ?_⟩
  · intro sessions g2 h
    exact runSessions_flag_mono sessions g g2 k h hk
  · intro i stream hsel
    have := beginTrackingRun_selects_unfinished g i stream k hsel
    rw [hk] at this
    exact absurd this (by simp)
  · cases k <;>
      simp only [GlobalState.finished] at hk <;>
      simp [showMainMenu, ledPair, hk]
  · cases k <;>
      simp only [GlobalState.finished] at hk <;>
      simp [showMainMenu, ledPair, hk]

/-- Witness for C5 at a concrete state with situps finished. -/
theorem c5_finished_is_permanent_witness :
    (ledPair ExerciseKind.situps).1 ∉
      (showMainMenu ⟨false, false, true, false, 0, 0, 10, 0⟩).map Prod.fst :=
  (c5_finished_is_permanent ⟨false, false, true, false, 0, 0, 10, 0⟩
    ExerciseKind.situps rfl).2.2.1

theorem trackSitUpsG_idle (g g2 : GlobalState) (ms : List Sample)
    (hle : g.numOfSitUps ≤ REPS) (h : trackSitUpsG g ms = some g2) :
    g2 = ⟨g.finishedJumpJacks, g.finishedSquats, true, g.finishedPushUps,
      g.numOfJumpJacks, g.numOfSquats, REPS, g.numOfPushUps⟩ := by
  unfold trackSitUpsG at h
  split at h
  · have hcount : (situpRun ⟨false, g.numOfSitUps⟩ ms).1.numOfSitUps = REPS :=
      le_antisymm (situpRun_count_le ms ⟨false, g.numOfSitUps⟩ hle) (by assumption)
    simp only [Option.some.injEq] at h
    rw [← h, hcount]
  · exact absurd h (by simp)

theorem trackPushUpsG_idle (g g2 : GlobalState) (ms : List Sample)
    (hle : g.numOfPushUps ≤ REPS) (h : trackPushUpsG g ms = some g2) :
    g2 = ⟨g.finishedJumpJacks, g.finishedSquats, g.finishedSitUps, true,
      g.numOfJumpJacks, g.numOfSquats, g.numOfSitUps, REPS⟩ := by
  unfold trackPushUpsG at h
  split at h
  · have hcount : (pushupRun ⟨false, g.numOfPushUps⟩ ms).1.numOfPushUps = REPS :=
      le_antisymm (pushupRun_count_le ms ⟨false, g.numOfPushUps⟩ hle) (by assumption)
    simp only [Option.some.injEq] at h
    rw [← h, hcount]
  · exact absurd h (by simp)

theorem trackSquatsG_idle (g g2 : GlobalState) (ms : List Sample)
    (hle : g.numOfSquats ≤ REPS) (h : trackSquatsG g ms = some g2) :
    g2 = ⟨g.finishedJumpJacks, true, g.finishedSitUps, g.finishedPushUps,
      g.numOfJumpJacks, REPS, g.numOfSitUps, g.numOfPushUps⟩ := by
  unfold trackSquatsG at h
  split at h
  · have hcount : (squatRun ⟨true, g.numOfSquats⟩ ms).1.numOfSquats = REPS :=
      le_antisymm (squatRun_count_le ms ⟨true, g.numOfSquats⟩ hle) (by assumption)
    simp only [Option.some.injEq] at h
    rw [← h, hcount]
  · exact absurd h (by simp)

theorem trackJumpJacksG_idle (g g2 : GlobalState) (ms : List Sample)
    (hle : g.numOfJumpJacks ≤ REPS) (h : trackJumpJacksG g ms = some g2) :
    g2 = ⟨true, g.finishedSquats, g.finishedSitUps, g.finishedPushUps,
      REPS, g.numOfSquats, g.numOfSitUps, g.numOfPushUps⟩ := by
  unfold trackJumpJacksG at h
  split at h
  · have hcount : (jumpJackRun ⟨1, g.numOfJumpJacks⟩ ms).1.numOfJumpJacks = REPS :=
      le_antisymm (jumpJackRun_count_le ms ⟨1, g.numOfJumpJacks⟩ hle) (by assumption)
    simp only [Option.some.injEq] at h
    rw [← h, hcount]
  · exact absurd h (by simp)

theorem beginTrackingRun_idle_inv (g g2 : GlobalState) (i : Sample)
    (stream : List Sample)
    (hinv : ∀ k, (g.finished k = true ↔ g.reps k = REPS) ∧
      (g.reps k = 0 ∨ g.reps k = REPS))
    (h : (beginTrackingRun g i stream).2 = some g2) :
    ∀ k, (g2.finished k = true ↔ g2.reps k = REPS) ∧
      (g2.reps k = 0 ∨ g2.reps k = REPS) := by
  unfold beginTrackingRun at h
  by_cases hup : i.x < i.y ∧ i.y < i.z
  · rw [if_pos hup] at h
    cases hdis : disambiguate g stream with
    | none =>
      rw [hdis] at h
      exact absurd h (by simp)
    | some pr =>
      rw [hdis] at h
      obtain ⟨pick, rest⟩ := pr
      cases pick with
      | jj =>
        have hle : g.numOfJumpJacks ≤ REPS := by
          have h0 := (hinv ExerciseKind.jumpingJacks).2
          simp only [GlobalState.reps] at h0
          rcases h0 with h0 | h0
          · rw [h0]
            exact Nat.zero_le REPS
          · rw [h0]
        have hg2 := trackJumpJacksG_idle g g2 rest hle h
        subst hg2
        intro k
        cases k with
        | jumpingJacks => simp [GlobalState.finished, GlobalState.reps]
        | squats => simpa [GlobalState.finished, GlobalState.reps] using hinv ExerciseKind.squats
        | situps => simpa [GlobalState.finished, GlobalState.reps] using hinv ExerciseKind.situps
        | pushups => simpa [GlobalState.finished, GlobalState.reps] using hinv ExerciseKind.pushups
      | sq =>
        have hle : g.numOfSquats ≤ REPS := by
          have h0 := (hinv ExerciseKind.squats).2
          simp only [GlobalState.reps] at h0
          rcases h0 with h0 | h0
          · rw [h0]
            exact Nat.zero_le REPS
          · rw [h0]
        have hg2 := trackSquatsG_idle g g2 rest hle h
        subst hg2
        intro k
        cases k with
        | jumpingJacks => simpa [GlobalState.finished, GlobalState.reps] using hinv ExerciseKind.jumpingJacks
        | squats => simp [GlobalState.finished, GlobalState.reps]
        | situps => simpa [GlobalState.finished, GlobalState.reps] using hinv ExerciseKind.situps
        | pushups => simpa [GlobalState.finished, GlobalState.reps] using hinv ExerciseKind.pushups
  · rw [if_neg hup] at h
    by_cases hpu : g.finishedPushUps = false ∧ i.y > i.z ∧ i.z > i.x
    · rw [if_pos hpu] at h
      have hle : g.numOfPushUps ≤ REPS := by
        have h0 := (hinv ExerciseKind.pushups).2
        simp only [GlobalState.reps] at h0
        rcases h0 with h0 | h0
        · rw [h0]
          exact Nat.zero_le REPS
        · rw [h0]
      have hg2 := trackPushUpsG_idle g g2 stream hle h
      subst hg2
      intro k
      cases k with
      | jumpingJacks => simpa [GlobalState.finished, GlobalState.reps] using hinv ExerciseKind.jumpingJacks
      | squats => simpa [GlobalState.finished, GlobalState.reps] using hinv ExerciseKind.squats
      | situps => simpa [GlobalState.finished, GlobalState.reps] using hinv ExerciseKind.situps
      | pushups => simp [GlobalState.finished, GlobalState.reps]
    · rw [if_neg hpu] at h
      by_cases hsu : g.finishedSitUps = false ∧ i.z > i.x ∧ i.x > i.y
      · rw [if_pos hsu] at h
        have hle : g.numOfSitUps ≤ REPS := by
          have h0 := (hinv ExerciseKind.situps).2
          simp only [GlobalState.reps] at h0
          rcases h0 with h0 | h0
          · rw [h0]
            exact Nat.zero_le REPS
          · rw [h0]
        have hg2 := trackSitUpsG_idle g g2 stream hle h
        subst hg2
        intro k
        cases k with
        | jumpingJacks => simpa [GlobalState.finished, GlobalState.reps] using hinv ExerciseKind.jumpingJacks
        | squats => simpa [GlobalState.finished, GlobalState.reps] using hinv ExerciseKind.squats
        | situps => simp [GlobalState.finished, GlobalState.reps]
        | pushups => simpa [GlobalState.finished, GlobalState.reps] using hinv ExerciseKind.pushups
      · rw [if_neg hsu] at h
        have hg : g = g2 := Option.some.inj h
        exact hg ▸ hinv

theorem runSessions_idle_inv (sessions : List (Sample × List Sample))
    (g g2 : GlobalState)
    (hinv : ∀ k, (g.finished k = true ↔ g.reps k = REPS) ∧
      (g.reps k = 0 ∨ g.reps k = REPS))
    (h : runSessions g sessions = some g2) :
    ∀ k, (g2.finished k = true ↔ g2.reps k = REPS) ∧
      (g2.reps k = 0 ∨ g2.reps k = REPS) := by
  induction sessions generalizing g with
  | nil =>
    rw [runSessions] at h
    exact (Option.some.inj h) ▸ hinv
  | cons p rest ih =>
    obtain ⟨i, s⟩ := p
    rw [runSessions] at h
    cases hb : (beginTrackingRun g i s).2 with
    | none =>
      rw [hb] at h
      exact absurd h (by simp)
    | some g3 =>
      rw [hb] at h
      exact ih g3 (beginTrackingRun_idle_inv g g3 i s hinv hb) h

/-- C9: In every global state observable back at the idle menu — i.e.
reachable from power-on by any finite list of completed `beginTracking`
sessions — each kind's finished flag is true exactly when its repetition
counter equals `REPS`, and each counter is either 0 or exactly `REPS`,
never strictly in between. -/
theorem c9_idle_counts_zero_or_ten (sessions : List (Sample × List Sample))
    (g2 : GlobalState) (k : ExerciseKind)
    (h : runSessions initialGlobal sessions = some g2) :
    (g2.finished k = true ↔ g2.reps k = REPS) ∧
    (g2.reps k = 0 ∨ g2.reps k = REPS) :=
  runSessions_idle_inv sessions initialGlobal g2
    (by
      intro k2
      cases k2 <;> simp [GlobalState.finished, GlobalState.reps, initialGlobal, REPS])
    h k

/-- Witness for C9: one full squat session from power-on. -/
theorem c9_idle_counts_zero_or_ten_witness :
    ((runSessions initialGlobal [(⟨1, 2, 3⟩, squatDownSample :: squatTenCycles)]).isSome) ∧
    ∀ g2, runSessions initialGlobal [(⟨1, 2, 3⟩, squatDownSample :: squatTenCycles)] =
        some g2 →
      (g2.finished ExerciseKind.squats = true ↔ g2.reps ExerciseKind.squats = REPS) :=
  ⟨by decide, fun g2 h => (c9_idle_counts_zero_or_ten
    [(⟨1, 2, 3⟩, squatDownSample :: squatTenCycles)] g2 ExerciseKind.squats h).1⟩
